import Mathlib

/-!
# Verification of the HRMS attendance notifier core

Shallow embedding of the repository's core logic:

* `src/src/utils.js` — `getDateRange` (trailing-N-days reporting window and
  the month walk), `isDateInRange`;
* `src/src/attendance.js` — `extractAbsentDays`, `checkAttendance`
  (the fetch loop is modelled with the monthly fetch as an explicit
  `Except`-valued oracle parameter, mirroring the `try`/re-`throw` loop);
* `src/src/browser-auth.js` — `extractTokensFromFile`,
  `extractTokensFromBrowser` (cookie lookup and expiry classification;
  the JWT-payload base64/JSON decode and the live browser are modelled as
  oracle parameters);
* the optimized browser-auth variant in the repository (the module defining
  `getValidTokensFromFile` with the 5-minute expiry buffer), embedded in
  namespace `CachedBrowserAuth`.

JavaScript `Date` values are modelled at calendar-day granularity
(year, month 1–12, day 1–31); `startDate` and `endDate` in `getDateRange`
are derived from the same "now", so timestamp comparisons in the source
coincide with calendar-date comparisons at this granularity.
JS month/day normalization (`setMonth`, `setDate` overflow/underflow
carrying) is embedded explicitly in `normDate` and `subDays`.
-/

/-- A JS `Date`, at calendar-day granularity. `month` is 1-based (the JS
`getMonth() + 1` view used throughout the source). -/
structure Date where
  year : Nat
  month : Nat
  day : Nat
deriving DecidableEq, Repr

/-- Gregorian leap-year rule (what JS `Date` uses). -/
def isLeapYear (y : Nat) : Bool :=
  (y % 4 == 0 && y % 100 != 0) || y % 400 == 0

/-- Number of days of month `m` (1-based) of year `y`. -/
def daysInMonth (y m : Nat) : Nat :=
  match m with
  | 1 => 31 | 3 => 31 | 5 => 31 | 7 => 31 | 8 => 31 | 10 => 31 | 12 => 31
  | 4 => 30 | 6 => 30 | 9 => 30 | 11 => 30
  | 2 => if isLeapYear y then 29 else 28
  | _ => 31

/-- A structurally valid calendar date. -/
def ValidDate (d : Date) : Prop :=
  1 ≤ d.month ∧ d.month ≤ 12 ∧ 1 ≤ d.day ∧ d.day ≤ daysInMonth d.year d.month

instance (d : Date) : Decidable (ValidDate d) := by
  unfold ValidDate; infer_instance

/-- Chronological order on dates (`a <= b` on JS `Date` timestamps, at
calendar-day granularity). -/
def dateLe (a b : Date) : Prop :=
  a.year < b.year ∨ (a.year = b.year ∧
    (a.month < b.month ∨ (a.month = b.month ∧ a.day ≤ b.day)))

instance (a b : Date) : Decidable (dateLe a b) := by
  unfold dateLe; infer_instance

/-- Strict chronological order on dates. -/
def dateLt (a b : Date) : Prop :=
  a.year < b.year ∨ (a.year = b.year ∧
    (a.month < b.month ∨ (a.month = b.month ∧ a.day < b.day)))

instance (a b : Date) : Decidable (dateLt a b) := by
  unfold dateLt; infer_instance

/-- Linear month index (`year * 12 + (month - 1)`) used to compare
`(month, year)` positions chronologically. -/
def linOfDate (d : Date) : Nat := d.year * 12 + (d.month - 1)

/-- Linear month index of a `(month, year)` pair as stored in the
`months` list built by `getDateRange`. -/
def linOfPair (p : Nat × Nat) : Nat := p.2 * 12 + (p.1 - 1)

/-- Chronological order on `(month, year)` pairs. -/
def pairBefore (a b : Nat × Nat) : Prop :=
  a.2 < b.2 ∨ (a.2 = b.2 ∧ a.1 < b.1)

instance (a b : Nat × Nat) : Decidable (pairBefore a b) := by
  unfold pairBefore; infer_instance

/-- `(year, month)` of the month before month `m` of year `y`. -/
def prevMonthYM (y m : Nat) : Nat × Nat :=
  if m = 1 then (y - 1, 12) else (y, m - 1)

/-- `(year, month)` of the month after month `m` of year `y`. -/
def nextMonthYM (y m : Nat) : Nat × Nat :=
  if m = 12 then (y + 1, 1) else (y, m + 1)

/-- JS `Date` day-of-month normalization for a (possibly overflowing)
`(year, month, day)` triple with `day ≤ 31`: days in excess of the month's
length carry into the following month.  A single carry step suffices
because the excess is at most `31 - 28 = 3 ≤ 28`, the minimum month
length. -/
def normDate (y m d : Nat) : Date :=
  if d ≤ daysInMonth y m then ⟨y, m, d⟩
  else if m = 12 then ⟨y + 1, 1, d - daysInMonth y m⟩
  else ⟨y, m + 1, d - daysInMonth y m⟩

/-- JS `current.setMonth(current.getMonth() + 1)`: move to the next
calendar month keeping the day of month, normalizing overflow
(e.g. Jan 30 `setMonth(+1)` lands on Mar 2 in a non-leap year). -/
def advanceMonth (dt : Date) : Date :=
  if dt.month = 12 then normDate (dt.year + 1) 1 dt.day
  else normDate dt.year (dt.month + 1) dt.day

/-- Helper for `subDays`: subtract `n` days from `(y, m, d)`, borrowing
whole months while `n ≥ d`.  Each borrow consumes at least one day of
`n`, so `fuel = n + 1` steps always reach the first branch. -/
def subDaysAux : Nat → Nat → Nat → Nat → Nat → Date
  | 0, y, m, d, _ => ⟨y, m, d⟩
  | fuel + 1, y, m, d, n =>
    if n < d then ⟨y, m, d - n⟩
    else if m = 1 then subDaysAux fuel (y - 1) 12 (daysInMonth (y - 1) 12) (n - d)
    else subDaysAux fuel y (m - 1) (daysInMonth y (m - 1)) (n - d)

/-- JS `startDate.setDate(startDate.getDate() - days)`: subtract `days`
days, with JS day-of-month underflow normalization (borrowing from the
preceding months). -/
def subDays (dt : Date) (n : Nat) : Date :=
  subDaysAux (n + 1) dt.year dt.month dt.day n

/-- The `while (current <= endDate)` loop of `getDateRange`
(src/src/utils.js): append the current `(month, year)` pair unless already
present, then advance one calendar month via JS `setMonth`.  The loop is
embedded with explicit fuel; every advance moves `current` forward by at
least 28 days, so `days + 2` iterations (the fuel `getDateRange` supplies)
always run the loop to completion. -/
def monthWalk (endDate : Date) : Nat → Date → List (Nat × Nat) → List (Nat × Nat)
  | 0, _, months => months
  | fuel + 1, current, months =>
    if dateLe current endDate then
      monthWalk endDate fuel (advanceMonth current)
        (if months.any (fun m => m.1 == current.month && m.2 == current.year) then months
         else months ++ [(current.month, current.year)])
    else months

/-- Result record of `getDateRange`. -/
structure DateRange where
  months : List (Nat × Nat)
  startDate : Date
  endDate : Date
deriving DecidableEq, Repr

/-- `getDateRange(days)` from src/src/utils.js, with "today" (the JS
`new Date()`) passed explicitly: `endDate = today`,
`startDate = today - days`, and `months` collected by the month walk
starting at `startDate` (not normalized to day 1). -/
def getDateRange (days : Nat) (today : Date) : DateRange :=
  let endDate := today
  let startDate := subDays today days
  ⟨monthWalk endDate (days + 2) startDate [], startDate, endDate⟩


/-- `isDateInRange(dateStr, startDate, endDate)` from src/src/utils.js:
`date >= startDate && date <= endDate` (inclusive on both ends), at
calendar-day granularity. -/
def isDateInRange (dt startDate endDate : Date) : Bool :=
  decide (dateLe startDate dt) && decide (dateLe dt endDate)

/-- JS `x || dflt` on an optional string field (`undefined` and the empty
string are falsy). -/
def jsStringOrDefault (v : Option String) (dflt : String) : String :=
  match v with
  | none => dflt
  | some s => if s = "" then dflt else s

/-- `TAG_TYPES` from src/src/attendance.js. -/
def TAG_TYPES_PRESENT : Nat := 1

/-- `TAG_TYPES.ABSENT` from src/src/attendance.js. -/
def TAG_TYPES_ABSENT : Nat := 3

/-- `TAG_TYPES.WEEKLY_OFF` from src/src/attendance.js. -/
def TAG_TYPES_WEEKLY_OFF : Nat := 5

/-- `TAG_TYPES.HOLIDAY` from src/src/attendance.js. -/
def TAG_TYPES_HOLIDAY : Nat := 7

/-- `TAG_TYPES.LEAVE` from src/src/attendance.js. -/
def TAG_TYPES_LEAVE : Nat := 9

/-- One element of a day's `DailyAttendanceStatus` array. -/
structure AttendanceStatus where
  TagType : Nat
  TagName : Option String
deriving DecidableEq, Repr

/-- The `ShiftDetails` object of a summary day (`Date` may be missing or
unparseable, modelled as `none`). -/
structure ShiftInfo where
  Date : Option Date
deriving DecidableEq, Repr

/-- One element of `Data.DailyAttendanceSummary`. -/
structure SummaryDay where
  ShiftDetails : Option ShiftInfo
  DailyAttendanceStatus : Option (List AttendanceStatus)
deriving DecidableEq, Repr

/-- `Data.CountDetails` of the monthly summary payload. -/
structure CountDetails where
  PresentCount : Option Nat
  AbsentCount : Option Nat
  LeaveCount : Option Nat
  HolidayCount : Option Nat
  WeeklyOffCount : Option Nat
deriving DecidableEq, Repr

/-- The `Data` object of the monthly summary payload. -/
structure AttendanceData where
  DailyAttendanceSummary : Option (List SummaryDay)
  CountDetails : Option CountDetails
deriving DecidableEq, Repr

/-- A parsed monthly-summary API response (`data.Data` may be absent). -/
structure ApiResponse where
  Data : Option AttendanceData
deriving DecidableEq, Repr

/-- An absent-day record `{date, status}` produced by `extractAbsentDays`. -/
structure AbsenceRecord where
  date : Date
  status : String
deriving DecidableEq, Repr

/-- The date of a summary day: `day.ShiftDetails?.Date`, `none` when missing. -/
def shiftDate (day : SummaryDay) : Option Date :=
  day.ShiftDetails.bind ShiftInfo.Date

/-- First absence-classified tag of a day:
`for (status of day.DailyAttendanceStatus || []) if (TagType === ABSENT) ... break`. -/
def firstAbsentTag (day : SummaryDay) : Option AttendanceStatus :=
  (day.DailyAttendanceStatus.getD []).find? (fun st => st.TagType == TAG_TYPES_ABSENT)

/-- The `for (const day of data.Data.DailyAttendanceSummary)` loop of
`extractAbsentDays` (src/src/attendance.js): skip a day with no date or a
date outside the range; otherwise push one record for the first
absence-classified tag (if any), with `TagName || 'Absent'` as status. -/
def extractLoop (startDate endDate : Date) : List SummaryDay → List AbsenceRecord
  | [] => []
  | day :: rest =>
    match shiftDate day with
    | none => extractLoop startDate endDate rest
    | some date =>
      if isDateInRange date startDate endDate then
        match firstAbsentTag day with
        | some st =>
          ⟨date, jsStringOrDefault st.TagName "Absent"⟩ :: extractLoop startDate endDate rest
        | none => extractLoop startDate endDate rest
      else extractLoop startDate endDate rest

/-- `extractAbsentDays(data, startDate, endDate)` from src/src/attendance.js. -/
def extractAbsentDays (data : ApiResponse) (startDate endDate : Date) : List AbsenceRecord :=
  match data.Data with
  | none => []
  | some d =>
    match d.DailyAttendanceSummary with
    | none => []
    | some days => extractLoop startDate endDate days

/-- A per-month row of the `summary` array built by `checkAttendance`
(`countDetails?.X || 0` for each field). -/
structure MonthlySummary where
  month : Nat
  year : Nat
  present : Nat
  absent : Nat
  leave : Nat
  holiday : Nat
  weeklyOff : Nat
deriving DecidableEq, Repr

/-- The return value of `checkAttendance`. -/
structure AggregateResult where
  absentDays : List AbsenceRecord
  totalAbsent : Nat
  summary : List MonthlySummary
deriving DecidableEq, Repr

/-- Build one `monthlySummaries` entry from a month's payload. -/
def buildMonthlySummary (month year : Nat) (data : ApiResponse) : MonthlySummary :=
  let cd := data.Data.bind AttendanceData.CountDetails
  { month := month
    year := year
    present := (cd.bind CountDetails.PresentCount).getD 0
    absent := (cd.bind CountDetails.AbsentCount).getD 0
    leave := (cd.bind CountDetails.LeaveCount).getD 0
    holiday := (cd.bind CountDetails.HolidayCount).getD 0
    weeklyOff := (cd.bind CountDetails.WeeklyOffCount).getD 0 }

/-- The `for (const {month, year} of months)` loop of `checkAttendance`
(src/src/attendance.js).  `fetch` is the monthly-fetch oracle
(`fetchMonthlyAttendance` throws on a non-ok HTTP status, modelled as
`Except.error`); the `catch` block logs and re-`throw`s, so the first
failure aborts the loop and discards every accumulator. -/
def checkAttendanceLoop (fetch : Nat → Nat → Except String ApiResponse)
    (startDate endDate : Date) :
    List (Nat × Nat) → List AbsenceRecord → List MonthlySummary →
    Except String AggregateResult
  | [], allAbsentDays, monthlySummaries =>
    .ok ⟨allAbsentDays, allAbsentDays.length, monthlySummaries⟩
  | (month, year) :: rest, allAbsentDays, monthlySummaries =>
    match fetch month year with
    | .error e => .error e
    | .ok data =>
      checkAttendanceLoop fetch startDate endDate rest
        (allAbsentDays ++ extractAbsentDays data startDate endDate)
        (monthlySummaries ++ [buildMonthlySummary month year data])

/-- `checkAttendance(days)` from src/src/attendance.js, with "today" and
the monthly fetch passed explicitly. -/
def checkAttendance (fetch : Nat → Nat → Except String ApiResponse)
    (days : Nat) (today : Date) : Except String AggregateResult :=
  let r := getDateRange days today
  checkAttendanceLoop fetch r.startDate r.endDate r.months [] []

/-- A browser/session cookie (only the fields the token extraction reads). -/
structure Cookie where
  name : String
  value : String
deriving DecidableEq, Repr

/-- Parsed contents of `session.json`. -/
structure SessionData where
  cookies : List Cookie
deriving DecidableEq, Repr

/-- The token triple returned by every extraction path. -/
structure Tokens where
  accessToken : String
  xsrfToken : String
  mappingId : String
deriving DecidableEq, Repr

/-- `cookies.find(c => c.name === n)`. -/
def findCookie (cookies : List Cookie) (n : String) : Option Cookie :=
  cookies.find? (fun c => c.name == n)

/-- `hrMid?.value || 'P4D9T6HA'`: the mapping id, defaulted to the
hard-coded constant when the `hr_mid` cookie is absent (or its value is
the empty string, which is falsy in JS). -/
def mappingIdOf (hrMid : Option Cookie) : String :=
  jsStringOrDefault (hrMid.map Cookie.value) "P4D9T6HA"

namespace BrowserAuth

/-- `extractTokensFromFile()` from src/src/browser-auth.js.

`decodeExp` is the oracle for decoding the `exp` claim (Unix seconds) out
of the `hr_atk` JWT payload (`JSON.parse(Buffer.from(value.split('.')[1],
'base64'))`); `none` models a decode failure (the `catch (e)` branch,
which the source ignores).  `now` is `Date.now()` in milliseconds;
`session` is the parsed `session.json` (`none`: file missing or
unreadable, the outer `catch`). -/
def extractTokensFromFile (decodeExp : String → Option Int) (now : Int)
    (session : Option SessionData) : Option Tokens :=
  match session with
  | none => none
  | some sessionData =>
    let hrAtk := findCookie sessionData.cookies "hr_atk"
    let xsrf := findCookie sessionData.cookies "XSRF-TOKEN"
    let hrMid := findCookie sessionData.cookies "hr_mid"
    match hrAtk, xsrf with
    | some hrAtk, some xsrf =>
      match decodeExp hrAtk.value with
      | some exp =>
        if exp * 1000 < now then none
        else some ⟨hrAtk.value, xsrf.value, mappingIdOf hrMid⟩
      | none =>
        -- decode error ignored: the token is returned unchecked
        some ⟨hrAtk.value, xsrf.value, mappingIdOf hrMid⟩
    | _, _ => none

/-- The cookie-extraction tail of `extractTokensFromBrowser()` once the
browser page has loaded (src/src/browser-auth.js, lines 144–162):
`page.cookies()` is the oracle argument. -/
def extractTokensFromCookies (cookies : List Cookie) : Option Tokens :=
  let hrAtk := findCookie cookies "hr_atk"
  let xsrf := findCookie cookies "XSRF-TOKEN"
  let hrMid := findCookie cookies "hr_mid"
  match hrAtk, xsrf with
  | some hrAtk, some xsrf => some ⟨hrAtk.value, xsrf.value, mappingIdOf hrMid⟩
  | _, _ => none

/-- `extractTokensFromBrowser()` from src/src/browser-auth.js: first the
portable session file, then the saved browser session.  `browserCookies`
is the oracle for the browser fallback (`none`: no browser session
directory, or the launch/navigation failed). -/
def extractTokensFromBrowser (decodeExp : String → Option Int) (now : Int)
    (session : Option SessionData) (browserCookies : Option (List Cookie)) :
    Option Tokens :=
  match extractTokensFromFile decodeExp now session with
  | some fileTokens => some fileTokens
  | none =>
    match browserCookies with
    | none => none
    | some cookies => extractTokensFromCookies cookies

end BrowserAuth

namespace CachedBrowserAuth

/-- Result of `getValidTokensFromFile()`: either still-valid tokens (the
cached fast path) or `{ needsRefresh: true, cookies }`. -/
inductive TokenFileResult where
  | valid (tokens : Tokens) (cookies : List Cookie)
  | needsRefresh (cookies : List Cookie)
deriving DecidableEq, Repr

/-- `getValidTokensFromFile()` from the optimized browser-auth variant of
the repository: tokens are classified valid only when
`expires.getTime() - buffer > Date.now()` with a fixed 5-minute buffer
(`buffer = 5 * 60 * 1000` ms, `expires = exp * 1000`); an undecodable
expiry claim falls through to `{ needsRefresh: true }`. -/
def getValidTokensFromFile (decodeExp : String → Option Int) (now : Int)
    (session : Option SessionData) : Option TokenFileResult :=
  match session with
  | none => none
  | some sessionData =>
    let hrAtk := findCookie sessionData.cookies "hr_atk"
    let xsrf := findCookie sessionData.cookies "XSRF-TOKEN"
    let hrMid := findCookie sessionData.cookies "hr_mid"
    match hrAtk, xsrf with
    | some hrAtk, some xsrf =>
      match decodeExp hrAtk.value with
      | some exp =>
        if exp * 1000 - 5 * 60 * 1000 > now then
          some (.valid ⟨hrAtk.value, xsrf.value, mappingIdOf hrMid⟩ sessionData.cookies)
        else
          some (.needsRefresh sessionData.cookies)
      | none =>
        -- cannot decode the token: needs refresh
        some (.needsRefresh sessionData.cookies)
    | _, _ => none

/-- `extractTokensFromBrowser()` from the optimized variant: return the
cached tokens without launching the browser when they are still valid;
otherwise launch the browser with the stored cookies and re-extract
(`browserCookies` oracle, `none` modelling a launch/navigation failure —
including the `TypeError` thrown when `cached` is `null`). -/
def extractTokensFromBrowser (decodeExp : String → Option Int) (now : Int)
    (session : Option SessionData) (browserCookies : Option (List Cookie)) :
    Option Tokens :=
  match session with
  | none => none
  | some sessionData =>
    match getValidTokensFromFile decodeExp now (some sessionData) with
    | some (.valid tokens _) => some tokens
    | _ =>
      match browserCookies with
      | none => none
      | some cookies =>
        let hrAtk := findCookie cookies "hr_atk"
        let xsrf := findCookie cookies "XSRF-TOKEN"
        let hrMid := findCookie cookies "hr_mid"
        match hrAtk, xsrf with
        | some hrAtk, some xsrf => some ⟨hrAtk.value, xsrf.value, mappingIdOf hrMid⟩
        | _, _ => none

end CachedBrowserAuth

namespace SpecModel

/-- Modelled from the spec: the *salary-period mode* of
`DateWindowCalculator` (spec §4.1) is not present under `src/` — the
sources only implement the trailing-N-days mode of `getDateRange`, while
the README documents the 26th→25th salary period.  Per the spec: if
`today.day >= 26` the window is `[26th of this month, 25th of next
month]`, otherwise `[26th of previous month, 25th of this month]`, with
month/year arithmetic rolling over year boundaries. -/
def getSalaryPeriodRange (today : Date) : Date × Date :=
  if 26 ≤ today.day then
    let p := nextMonthYM today.year today.month
    (⟨today.year, today.month, 26⟩, ⟨p.1, p.2, 25⟩)
  else
    let p := prevMonthYM today.year today.month
    (⟨p.1, p.2, 26⟩, ⟨today.year, today.month, 25⟩)

end SpecModel

/-- The day-entry list the extraction iterates over
(`data?.Data?.DailyAttendanceSummary`, defaulting to the empty list). -/
def summaryDays (data : ApiResponse) : List SummaryDay :=
  (data.Data.bind AttendanceData.DailyAttendanceSummary).getD []

/-- The absence records a month `(month, year)` contributes to the
aggregate (empty when the fetch fails, in which case the loop aborts
anyway). -/
def monthExtract (fetch : Nat → Nat → Except String ApiResponse) (s e : Date)
    (my : Nat × Nat) : List AbsenceRecord :=
  match fetch my.1 my.2 with
  | .ok p => extractAbsentDays p s e
  | .error _ => []

/-- Sorted by date: every record is chronologically no later than every
record after it. -/
def Chronological (l : List AbsenceRecord) : Prop :=
  l.Pairwise (fun a b => dateLe a.date b.date)

instance (l : List AbsenceRecord) : Decidable (Chronological l) := by
  unfold Chronological; infer_instance

/-- A monthly-fetch oracle whose single month's payload lists its days in
*descending* date order (Jan 18 before Jan 16). -/
def c6fetchUnsorted : Nat → Nat → Except String ApiResponse := fun _ _ =>
  .ok ⟨some ⟨some [⟨some ⟨some ⟨2025, 1, 18⟩⟩, some [⟨3, some "Absent"⟩]⟩,
                   ⟨some ⟨some ⟨2025, 1, 16⟩⟩, some [⟨3, some "Absent"⟩]⟩], none⟩⟩

/-- A two-month fetch oracle with well-ordered month-granular payloads
(January lists Jan 20, February lists Feb 5). -/
def c6fetchSorted : Nat → Nat → Except String ApiResponse := fun m _ =>
  if m = 1 then
    .ok ⟨some ⟨some [⟨some ⟨some ⟨2025, 1, 20⟩⟩, some [⟨3, some "Absent"⟩]⟩], none⟩⟩
  else
    .ok ⟨some ⟨some [⟨some ⟨some ⟨2025, 2, 5⟩⟩, some [⟨3, some "Absent"⟩]⟩], none⟩⟩

theorem daysInMonth_bounds (y m : Nat) (h1 : 1 ≤ m) (h2 : m ≤ 12) :
    28 ≤ daysInMonth y m ∧ daysInMonth y m ≤ 31 := by
  interval_cases m <;> simp only [daysInMonth] <;> first
    | omega
    | (split <;> omega)

theorem normDate_valid {y m d : Nat} (hm1 : 1 ≤ m) (hm2 : m ≤ 12)
    (hd1 : 1 ≤ d) (hd2 : d ≤ 31) : ValidDate (normDate y m d) := by
  have h1 := daysInMonth_bounds y m hm1 hm2
  unfold normDate ValidDate
  split
  · exact ⟨hm1, hm2, hd1, by assumption⟩
  · split
    · have h2 := daysInMonth_bounds (y + 1) 1 (by omega) (by omega)
      refine ⟨by simp, by simp, ?_, ?_⟩ <;> simp <;> omega
    · have h2 := daysInMonth_bounds y (m + 1) (by omega) (by omega)
      refine ⟨?_, ?_, ?_, ?_⟩ <;> simp <;> omega

theorem advanceMonth_valid {d : Date} (h : ValidDate d) : ValidDate (advanceMonth d) := by
  obtain ⟨hm1, hm2, hd1, hd2⟩ := h
  have hub : d.day ≤ 31 := le_trans hd2 (daysInMonth_bounds d.year d.month hm1 hm2).2
  unfold advanceMonth
  split
  · exact normDate_valid (by omega) (by omega) hd1 hub
  · exact normDate_valid (by omega) (by omega) hd1 hub

theorem linOfDate_advanceMonth {d : Date} (h : ValidDate d) :
    linOfDate d < linOfDate (advanceMonth d) := by
  obtain ⟨hm1, hm2, hd1, hd2⟩ := h
  unfold advanceMonth normDate linOfDate
  split <;> split <;> (try split) <;> simp <;> omega

theorem subDaysAux_valid : ∀ (fuel y m d n : Nat), 1 ≤ m → m ≤ 12 → 1 ≤ d →
    d ≤ daysInMonth y m → ValidDate (subDaysAux fuel y m d n) := by
  intro fuel
  induction fuel with
  | zero => intro y m d n hm1 hm2 hd1 hd2; exact ⟨hm1, hm2, hd1, hd2⟩
  | succ k ih =>
    intro y m d n hm1 hm2 hd1 hd2
    rw [subDaysAux]
    split
    · rename_i hlt
      exact ⟨hm1, hm2, by show 1 ≤ d - n; omega, by show d - n ≤ daysInMonth y m; omega⟩
    · split
      · exact ih _ _ _ _ (by omega) (by omega)
          (by have := daysInMonth_bounds (y - 1) 12 (by omega) (by omega); omega) le_rfl
      · exact ih _ _ _ _ (by omega) (by omega)
          (by have := daysInMonth_bounds y (m - 1) (by omega) (by omega); omega) le_rfl

theorem subDays_valid {dt : Date} (h : ValidDate dt) (n : Nat) : ValidDate (subDays dt n) :=
  subDaysAux_valid (n + 1) dt.year dt.month dt.day n h.1 h.2.1 h.2.2.1 h.2.2.2

theorem monthWalk_invariant (endD : Date) : ∀ (fuel : Nat) (cur : Date) (acc : List (Nat × Nat)),
    ValidDate cur →
    acc.Pairwise (fun a b => linOfPair a < linOfPair b) →
    (∀ p ∈ acc, 1 ≤ p.1 ∧ p.1 ≤ 12) →
    (∀ p ∈ acc, linOfPair p < linOfDate cur) →
    (monthWalk endD fuel cur acc).Pairwise (fun a b => linOfPair a < linOfPair b) ∧
    (∀ p ∈ monthWalk endD fuel cur acc, 1 ≤ p.1 ∧ p.1 ≤ 12) := by
  intro fuel
  induction fuel with
  | zero => intro cur acc hv hpw hmb hlt; rw [monthWalk]; exact ⟨hpw, hmb⟩
  | succ k ih =>
    intro cur acc hv hpw hmb hlt
    rw [monthWalk]
    split
    · have hany : (acc.any fun m => m.1 == cur.month && m.2 == cur.year) = false := by
        rw [List.any_eq_false]
        intro p hp
        simp only [Bool.and_eq_true, beq_iff_eq, not_and]
        intro h1 h2
        have := hlt p hp
        unfold linOfPair linOfDate at this
        omega
      rw [hany]
      simp only [Bool.false_eq_true, if_false]
      apply ih
      · exact advanceMonth_valid hv
      · rw [List.pairwise_append]
        refine ⟨hpw, List.pairwise_singleton _ _, ?_⟩
        intro a ha b hb
        simp only [List.mem_singleton] at hb
        subst hb
        exact hlt a ha
      · intro p hp
        rcases List.mem_append.mp hp with h | h
        · exact hmb p h
        · simp only [List.mem_singleton] at h
          subst h
          exact ⟨hv.1, hv.2.1⟩
      · intro p hp
        have hadv := linOfDate_advanceMonth hv
        rcases List.mem_append.mp hp with h | h
        · exact lt_trans (hlt p h) hadv
        · simp only [List.mem_singleton] at h
          subst h
          exact hadv
    · exact ⟨hpw, hmb⟩

theorem getDateRange_months_pairwise (days : Nat) (today : Date) (hv : ValidDate today) :
    (getDateRange days today).months.Pairwise (fun a b => linOfPair a < linOfPair b) ∧
    ∀ p ∈ (getDateRange days today).months, 1 ≤ p.1 ∧ p.1 ≤ 12 :=
  monthWalk_invariant today (days + 2) (subDays today days) []
    (subDays_valid hv days) List.Pairwise.nil (by simp) (by simp)

/-- C1 (evaluation of the code at the failing input): for `today =
2025-03-01` and `days = 31` the window is `[2025-01-29, 2025-03-01]`,
which contains 2025-02-15, yet the `months` list produced by
`getDateRange` is `[(1, 2025), (3, 2025)]` — February is skipped by the
day-of-month overflow of the month walk (`startDate` is *not* normalized
to day 1), so a day of the window belongs to no listed month. -/
theorem getDateRange_february_skipped :
    (getDateRange 31 ⟨2025, 3, 1⟩).months = [(1, 2025), (3, 2025)] ∧
    (getDateRange 31 ⟨2025, 3, 1⟩).startDate = ⟨2025, 1, 29⟩ ∧
    (getDateRange 31 ⟨2025, 3, 1⟩).endDate = ⟨2025, 3, 1⟩ ∧
    dateLe (getDateRange 31 ⟨2025, 3, 1⟩).startDate ⟨2025, 2, 15⟩ ∧
    dateLe ⟨2025, 2, 15⟩ (getDateRange 31 ⟨2025, 3, 1⟩).endDate ∧
    ∀ p ∈ (getDateRange 31 ⟨2025, 3, 1⟩).months, ¬(p.1 = 2 ∧ p.2 = 2025) := by
  decide

/-- C3: for every lookback `days ≥ 0` and every (valid) `today`, the
`months` list returned by `getDateRange` is chronologically sorted (each
`(month, year)` pair strictly later than its predecessor) and contains no
duplicate pair. -/
theorem getDateRange_months_sorted_nodup (days : Nat) (today : Date) (hv : ValidDate today) :
    (getDateRange days today).months.Pairwise pairBefore ∧
    (getDateRange days today).months.Nodup := by
  obtain ⟨hpw, hmb⟩ := getDateRange_months_pairwise days today hv
  constructor
  · refine hpw.imp_of_mem ?_
    intro a b ha hb hab
    have h1 := hmb a ha
    have h2 := hmb b hb
    unfold linOfPair at hab
    unfold pairBefore
    omega
  · exact hpw.imp fun h hab => by subst hab; exact lt_irrefl _ h

/-- Witness for C3 at a concrete input (a two-month window). -/
theorem getDateRange_months_sorted_nodup_witness :
    (getDateRange 31 ⟨2025, 2, 10⟩).months.Pairwise pairBefore ∧
    (getDateRange 31 ⟨2025, 2, 10⟩).months.Nodup :=
  getDateRange_months_sorted_nodup 31 ⟨2025, 2, 10⟩ (by decide)

/-- C2: salary-period window boundaries (spec-modelled, the salary-period
mode is absent from src/): if `today.day ≥ 26` the window is the 26th of
this month to the 25th of the next month; otherwise the 26th of the
previous month to the 25th of this month; December→January (and
January→December) rollovers carry the year correctly, and the window is
always non-empty. -/
theorem getSalaryPeriodRange_boundaries (today : Date) (hv : ValidDate today)
    (hy : 1 ≤ today.year) :
    (26 ≤ today.day →
      (SpecModel.getSalaryPeriodRange today).1 = ⟨today.year, today.month, 26⟩ ∧
      (SpecModel.getSalaryPeriodRange today).2 =
        (if today.month = 12 then ⟨today.year + 1, 1, 25⟩
         else ⟨today.year, today.month + 1, 25⟩)) ∧
    (today.day < 26 →
      (SpecModel.getSalaryPeriodRange today).1 =
        (if today.month = 1 then ⟨today.year - 1, 12, 26⟩
         else ⟨today.year, today.month - 1, 26⟩) ∧
      (SpecModel.getSalaryPeriodRange today).2 = ⟨today.year, today.month, 25⟩) ∧
    dateLt (SpecModel.getSalaryPeriodRange today).1 (SpecModel.getSalaryPeriodRange today).2 := by
  obtain ⟨hm1, hm2, hd1, hd2⟩ := hv
  unfold SpecModel.getSalaryPeriodRange nextMonthYM prevMonthYM
  by_cases h26 : 26 ≤ today.day <;> by_cases h12 : today.month = 12 <;>
    by_cases h1 : today.month = 1 <;>
    simp [h26, h12, h1, dateLt] <;> omega

/-- Witness for C2: a day ≥ 26 in December rolls the end into January of
the next year; a day < 26 in January rolls the start into December of the
previous year. -/
theorem getSalaryPeriodRange_boundaries_witness :
    (SpecModel.getSalaryPeriodRange ⟨2025, 12, 30⟩).2 = ⟨2026, 1, 25⟩ ∧
    (SpecModel.getSalaryPeriodRange ⟨2026, 1, 5⟩).1 = ⟨2025, 12, 26⟩ := by
  constructor
  · have h := (getSalaryPeriodRange_boundaries ⟨2025, 12, 30⟩ (by decide) (by decide)).1
      (by decide)
    simpa using h.2
  · have h := (getSalaryPeriodRange_boundaries ⟨2026, 1, 5⟩ (by decide) (by decide)).2.1
      (by decide)
    simpa using h.1

theorem extractAbsentDays_eq_loop (data : ApiResponse) (s e : Date) :
    extractAbsentDays data s e = extractLoop s e (summaryDays data) := by
  unfold extractAbsentDays summaryDays
  rcases hd : data.Data with _ | d
  · rfl
  · rcases hs : d.DailyAttendanceSummary with _ | days <;> simp [hs, extractLoop]

theorem isDateInRange_iff {dt s e : Date} :
    isDateInRange dt s e = true ↔ dateLe s dt ∧ dateLe dt e := by
  simp [isDateInRange]

theorem extractLoop_mem_range (s e : Date) : ∀ (days : List SummaryDay),
    ∀ r ∈ extractLoop s e days, dateLe s r.date ∧ dateLe r.date e := by
  intro days
  induction days with
  | nil => intro r hr; simp [extractLoop] at hr
  | cons day rest ih =>
    intro r hr
    rw [extractLoop] at hr
    split at hr
    · exact ih r hr
    · rename_i dt hdt
      split at hr
      · rename_i hin
        split at hr
        · rcases List.mem_cons.mp hr with h | h
          · subst h
            simpa using isDateInRange_iff.mp hin
          · exact ih r h
        · exact ih r hr
      · exact ih r hr

theorem extractLoop_complete (s e : Date) : ∀ (days : List SummaryDay),
    ∀ day ∈ days, ∀ dt, shiftDate day = some dt → isDateInRange dt s e = true →
    ∀ st, firstAbsentTag day = some st →
    AbsenceRecord.mk dt (jsStringOrDefault st.TagName "Absent") ∈ extractLoop s e days := by
  intro days
  induction days with
  | nil => intro day hday; simp at hday
  | cons d0 rest ih =>
    intro day hday dt hdt hin st hst
    rw [extractLoop]
    rcases List.mem_cons.mp hday with h | h
    · subst h
      simp only [hdt, hin, if_true, hst]
      exact List.mem_cons_self _ _
    · have hrec := ih day h dt hdt hin st hst
      split
      · exact hrec
      · split
        · split
          · exact List.mem_cons_of_mem _ hrec
          · exact hrec
        · exact hrec

/-- C4: extraction is filtered to the window `[startDate, endDate]`
inclusive.  (a) Every record produced by `extractAbsentDays` has its date
inside the window (a day outside the window is discarded even if present
in the month-granular payload); (b) conversely, every payload day whose
date is in the window — the boundaries `startDate` and `endDate`
included — and which carries an absence-classified tag yields a record
with that date. -/
theorem extractAbsentDays_window_filter (data : ApiResponse) (s e : Date) :
    (∀ r ∈ extractAbsentDays data s e, dateLe s r.date ∧ dateLe r.date e) ∧
    (∀ day ∈ summaryDays data, ∀ dt, shiftDate day = some dt →
      dateLe s dt → dateLe dt e → ∀ st, firstAbsentTag day = some st →
      ∃ r ∈ extractAbsentDays data s e, r.date = dt) := by
  rw [extractAbsentDays_eq_loop]
  constructor
  · exact extractLoop_mem_range s e (summaryDays data)
  · intro day hday dt hdt h1 h2 st hst
    exact ⟨_, extractLoop_complete s e (summaryDays data) day hday dt hdt
      (isDateInRange_iff.mpr ⟨h1, h2⟩) st hst, rfl⟩

/-- Witness for C4: a payload with one day on the end boundary of the
window and one day outside it, both carrying the absent tag; the boundary
day yields a record and every record stays within the window. -/
theorem extractAbsentDays_window_filter_witness :
    (∀ r ∈ extractAbsentDays
        ⟨some ⟨some [⟨some ⟨some ⟨2025, 1, 31⟩⟩, some [⟨3, some "Absent"⟩]⟩,
                     ⟨some ⟨some ⟨2025, 2, 5⟩⟩, some [⟨3, some "Absent"⟩]⟩], none⟩⟩
        ⟨2025, 1, 1⟩ ⟨2025, 1, 31⟩,
      dateLe ⟨2025, 1, 1⟩ r.date ∧ dateLe r.date ⟨2025, 1, 31⟩) ∧
    (∃ r ∈ extractAbsentDays
        ⟨some ⟨some [⟨some ⟨some ⟨2025, 1, 31⟩⟩, some [⟨3, some "Absent"⟩]⟩,
                     ⟨some ⟨some ⟨2025, 2, 5⟩⟩, some [⟨3, some "Absent"⟩]⟩], none⟩⟩
        ⟨2025, 1, 1⟩ ⟨2025, 1, 31⟩,
      r.date = ⟨2025, 1, 31⟩) := by
  constructor
  · exact (extractAbsentDays_window_filter _ ⟨2025, 1, 1⟩ ⟨2025, 1, 31⟩).1
  · exact (extractAbsentDays_window_filter _ ⟨2025, 1, 1⟩ ⟨2025, 1, 31⟩).2
      ⟨some ⟨some ⟨2025, 1, 31⟩⟩, some [⟨3, some "Absent"⟩]⟩ (by decide)
      ⟨2025, 1, 31⟩ (by decide) (by decide) (by decide)
      ⟨3, some "Absent"⟩ (by decide)

theorem extractLoop_date_mem (s e : Date) : ∀ (days : List SummaryDay),
    ∀ r ∈ extractLoop s e days, r.date ∈ days.filterMap shiftDate := by
  intro days
  induction days with
  | nil => intro r hr; simp [extractLoop] at hr
  | cons day rest ih =>
    intro r hr
    rw [extractLoop] at hr
    split at hr
    · rename_i hnone
      simp only [List.filterMap_cons, hnone]
      exact ih r hr
    · rename_i dt hdt
      simp only [List.filterMap_cons, hdt]
      split at hr
      · split at hr
        · rcases List.mem_cons.mp hr with h | h
          · subst h
            exact List.mem_cons_self _ _
          · exact List.mem_cons_of_mem _ (ih r h)
        · exact List.mem_cons_of_mem _ (ih r hr)
      · exact List.mem_cons_of_mem _ (ih r hr)

theorem extractLoop_dates_nodup (s e : Date) : ∀ (days : List SummaryDay),
    (days.filterMap shiftDate).Nodup →
    ((extractLoop s e days).map AbsenceRecord.date).Nodup := by
  intro days
  induction days with
  | nil => intro _; simp [extractLoop]
  | cons day rest ih =>
    intro h
    rw [extractLoop]
    split
    · rename_i hnone
      simp only [List.filterMap_cons, hnone] at h
      exact ih h
    · rename_i dt hdt
      simp only [List.filterMap_cons, hdt, List.nodup_cons] at h
      obtain ⟨hd, h2⟩ := h
      split
      · split
        · simp only [List.map_cons, List.nodup_cons]
          constructor
          · intro hmem
            obtain ⟨r, hr, hrd⟩ := List.mem_map.mp hmem
            exact hd (hrd ▸ extractLoop_date_mem s e rest r hr)
          · exact ih h2
        · exact ih h2
      · exact ih h2

/-- C5 counterexample: a payload listing the same calendar date
(2025-01-10) in two day entries, each with an absence-classified tag,
makes `extractAbsentDays` emit two records for that one date — so "at
most one AbsenceRecord per calendar date for every payload" fails as
stated. -/
theorem extractAbsentDays_duplicate_date_cex :
    ¬ ((extractAbsentDays
        ⟨some ⟨some [⟨some ⟨some ⟨2025, 1, 10⟩⟩, some [⟨3, some "Absent Full Day"⟩]⟩,
                     ⟨some ⟨some ⟨2025, 1, 10⟩⟩, some [⟨3, none⟩]⟩], none⟩⟩
        ⟨2025, 1, 1⟩ ⟨2025, 1, 31⟩).map AbsenceRecord.date).Nodup := by
  decide

/-- C5 (amended): provided the payload's day entries carry pairwise
distinct dates (the shape the month-granular endpoint returns), the
extraction yields at most one record per calendar date; the record
produced for a day is built from the *first* tag classified Absent
(TagType 3) in its status list, and a missing tag label defaults to the
string "Absent". -/
theorem extractAbsentDays_unique_first_tag (data : ApiResponse) (s e : Date)
    (hnodup : ((summaryDays data).filterMap shiftDate).Nodup) :
    ((extractAbsentDays data s e).map AbsenceRecord.date).Nodup ∧
    (∀ day ∈ summaryDays data, ∀ dt, shiftDate day = some dt →
      isDateInRange dt s e = true → ∀ st, firstAbsentTag day = some st →
      AbsenceRecord.mk dt (jsStringOrDefault st.TagName "Absent") ∈
        extractAbsentDays data s e) ∧
    (∀ st : AttendanceStatus, st.TagName = none →
      jsStringOrDefault st.TagName "Absent" = "Absent") := by
  rw [extractAbsentDays_eq_loop]
  refine ⟨extractLoop_dates_nodup s e (summaryDays data) hnodup, ?_, ?_⟩
  · intro day hday dt hdt hin st hst
    exact extractLoop_complete s e (summaryDays data) day hday dt hdt hin st hst
  · intro st h
    rw [h]
    rfl

/-- Witness for C5: a single-day payload whose status list has two
absence-classified tags, the first with no label; exactly one record is
produced, built from the first tag, with the default "Absent" status. -/
theorem extractAbsentDays_unique_first_tag_witness :
    ((extractAbsentDays
        ⟨some ⟨some [⟨some ⟨some ⟨2025, 1, 10⟩⟩,
                     some [⟨1, some "Present"⟩, ⟨3, none⟩, ⟨3, some "Second"⟩]⟩], none⟩⟩
        ⟨2025, 1, 1⟩ ⟨2025, 1, 31⟩).map AbsenceRecord.date).Nodup ∧
    AbsenceRecord.mk ⟨2025, 1, 10⟩ "Absent" ∈
      extractAbsentDays
        ⟨some ⟨some [⟨some ⟨some ⟨2025, 1, 10⟩⟩,
                     some [⟨1, some "Present"⟩, ⟨3, none⟩, ⟨3, some "Second"⟩]⟩], none⟩⟩
        ⟨2025, 1, 1⟩ ⟨2025, 1, 31⟩ := by
  have h := extractAbsentDays_unique_first_tag
    ⟨some ⟨some [⟨some ⟨some ⟨2025, 1, 10⟩⟩,
                 some [⟨1, some "Present"⟩, ⟨3, none⟩, ⟨3, some "Second"⟩]⟩], none⟩⟩
    ⟨2025, 1, 1⟩ ⟨2025, 1, 31⟩ (by decide)
  refine ⟨h.1, ?_⟩
  exact h.2.1
    ⟨some ⟨some ⟨2025, 1, 10⟩⟩,
     some [⟨1, some "Present"⟩, ⟨3, none⟩, ⟨3, some "Second"⟩]⟩
    (by decide) ⟨2025, 1, 10⟩ (by decide) (by decide) ⟨3, none⟩ (by decide)

theorem checkAttendanceLoop_ok (fetch : Nat → Nat → Except String ApiResponse)
    (s e : Date) : ∀ (ms : List (Nat × Nat)) (accA : List AbsenceRecord)
      (accS : List MonthlySummary) (res : AggregateResult),
      checkAttendanceLoop fetch s e ms accA accS = .ok res →
      res.absentDays = accA ++ (ms.map (monthExtract fetch s e)).flatten ∧
      res.totalAbsent = res.absentDays.length := by
  intro ms
  induction ms with
  | nil =>
    intro accA accS res h
    rw [checkAttendanceLoop] at h
    rcases h
    simp
  | cons my rest ih =>
    obtain ⟨m, y⟩ := my
    intro accA accS res h
    rw [checkAttendanceLoop] at h
    split at h
    · rcases h
    · rename_i p hp
      obtain ⟨h1, h2⟩ := ih _ _ _ h
      refine ⟨?_, h2⟩
      rw [h1]
      simp [monthExtract, hp]

theorem checkAttendanceLoop_error (fetch : Nat → Nat → Except String ApiResponse)
    (s e : Date) : ∀ (ms : List (Nat × Nat)) (accA : List AbsenceRecord)
      (accS : List MonthlySummary),
      (∃ my ∈ ms, ∃ err, fetch my.1 my.2 = .error err) →
      ∃ err, checkAttendanceLoop fetch s e ms accA accS = .error err := by
  intro ms
  induction ms with
  | nil =>
    intro accA accS h
    obtain ⟨my, hmy, _⟩ := h
    simp at hmy
  | cons my rest ih =>
    obtain ⟨m, y⟩ := my
    intro accA accS h
    rw [checkAttendanceLoop]
    rcases hf : fetch m y with err | p
    · exact ⟨err, rfl⟩
    · obtain ⟨my', hmy', err', herr'⟩ := h
      rcases List.mem_cons.mp hmy' with hh | hh
      · subst hh
        rw [hf] at herr'
        rcases herr'
      · exact ih _ _ ⟨my', hh, err', herr'⟩

/-- C7: if fetching any month of the window fails, the whole
`checkAttendance` operation fails (the `catch` block re-throws), and the
`Except.error` result carries no partial aggregate — months fetched
successfully before the failure are discarded. -/
theorem checkAttendance_aborts_on_failure (fetch : Nat → Nat → Except String ApiResponse)
    (days : Nat) (today : Date)
    (h : ∃ my ∈ (getDateRange days today).months, ∃ err, fetch my.1 my.2 = .error err) :
    ∃ err, checkAttendance fetch days today = .error err := by
  unfold checkAttendance
  exact checkAttendanceLoop_error fetch _ _ _ _ _ h

/-- Witness for C7: a two-month window (January–February 2025) where the
second month's fetch returns HTTP 401; the whole operation errors. -/
theorem checkAttendance_aborts_on_failure_witness :
    ∃ err, checkAttendance
      (fun m _ => if m = 2 then .error "Failed to fetch attendance: 401 - Unauthorized"
                  else .ok ⟨none⟩) 31 ⟨2025, 2, 10⟩ = .error err := by
  apply checkAttendance_aborts_on_failure
  exact ⟨(2, 2025), by decide, "Failed to fetch attendance: 401 - Unauthorized", rfl⟩

/-- C6 counterexample: `checkAttendance` preserves each month's payload
order and never sorts, so a payload listing Jan 18 before Jan 16 yields an
aggregate `absentDays` sequence that is not sorted by date — the claim's
"the resulting sequence is sorted by date" fails as stated (for every
result). -/
theorem checkAttendance_unsorted_cex :
    ∃ res, checkAttendance c6fetchUnsorted 5 ⟨2025, 1, 20⟩ = .ok res ∧
      res.absentDays = [⟨⟨2025, 1, 18⟩, "Absent"⟩, ⟨⟨2025, 1, 16⟩, "Absent"⟩] ∧
      ¬ Chronological res.absentDays := by
  refine ⟨_, rfl, ?_, ?_⟩ <;> decide

/-- C6 (amended): `checkAttendance` concatenates the per-month absence
lists in the chronological order of the `months` list, preserving each
month's internal day order, and `totalAbsent` equals the length of
`absentDays` — unconditionally.  The concatenation is additionally sorted
by date *provided* each month's payload lists its extracted days in
ascending date order and contains only dates of that `(month, year)` (the
shape the month-granular endpoint returns); without that proviso
sortedness fails (see the payload-order counterexample). -/
theorem checkAttendance_chronological (fetch : Nat → Nat → Except String ApiResponse)
    (days : Nat) (today : Date) (hv : ValidDate today)
    (hmonthly : ∀ my ∈ (getDateRange days today).months, ∀ p, fetch my.1 my.2 = .ok p →
      Chronological (extractAbsentDays p (getDateRange days today).startDate
        (getDateRange days today).endDate) ∧
      ∀ r ∈ extractAbsentDays p (getDateRange days today).startDate
          (getDateRange days today).endDate,
        r.date.month = my.1 ∧ r.date.year = my.2)
    (res : AggregateResult)
    (hres : checkAttendance fetch days today = .ok res) :
    res.absentDays = ((getDateRange days today).months.map
      (monthExtract fetch (getDateRange days today).startDate
        (getDateRange days today).endDate)).flatten ∧
    res.totalAbsent = res.absentDays.length ∧
    Chronological res.absentDays := by
  have hres' : checkAttendanceLoop fetch (getDateRange days today).startDate
      (getDateRange days today).endDate (getDateRange days today).months [] [] = .ok res :=
    hres
  obtain ⟨habs, htot⟩ := checkAttendanceLoop_ok fetch _ _ _ _ _ _ hres'
  rw [List.nil_append] at habs
  refine ⟨habs, htot, ?_⟩
  rw [habs]
  unfold Chronological
  rw [List.pairwise_flatten]
  constructor
  · intro l hl
    obtain ⟨my, hmy, rfl⟩ := List.mem_map.mp hl
    unfold monthExtract
    rcases hf : fetch my.1 my.2 with err | p
    · simp
    · exact (hmonthly my hmy p hf).1
  · rw [List.pairwise_map]
    obtain ⟨hpwM, hbM⟩ := getDateRange_months_pairwise days today hv
    refine hpwM.imp_of_mem ?_
    intro a b ha hb hab x hx y hy
    unfold monthExtract at hx hy
    rcases hfa : fetch a.1 a.2 with err | p
    · rw [hfa] at hx
      simp at hx
    · rw [hfa] at hx
      rcases hfb : fetch b.1 b.2 with err2 | q
      · rw [hfb] at hy
        simp at hy
      · rw [hfb] at hy
        obtain ⟨hxm, hxy⟩ := (hmonthly a ha p hfa).2 x hx
        obtain ⟨hym, hyy⟩ := (hmonthly b hb q hfb).2 y hy
        have h1 := hbM a ha
        have h2 := hbM b hb
        unfold linOfPair at hab
        unfold dateLe
        omega

/-- Witness for C6 on a concrete two-month window (January–February
2025) with in-order payloads: the aggregate is the chronological
concatenation and `totalAbsent` is its length. -/
theorem checkAttendance_chronological_witness :
    ∃ res, checkAttendance c6fetchSorted 31 ⟨2025, 2, 10⟩ = .ok res ∧
      Chronological res.absentDays ∧ res.totalAbsent = res.absentDays.length := by
  have hmonthly : ∀ my ∈ (getDateRange 31 ⟨2025, 2, 10⟩).months,
      ∀ p, c6fetchSorted my.1 my.2 = .ok p →
      Chronological (extractAbsentDays p (getDateRange 31 ⟨2025, 2, 10⟩).startDate
        (getDateRange 31 ⟨2025, 2, 10⟩).endDate) ∧
      ∀ r ∈ extractAbsentDays p (getDateRange 31 ⟨2025, 2, 10⟩).startDate
          (getDateRange 31 ⟨2025, 2, 10⟩).endDate,
        r.date.month = my.1 ∧ r.date.year = my.2 := by
    intro my hmy p hp
    have hms : (getDateRange 31 ⟨2025, 2, 10⟩).months = [(1, 2025), (2, 2025)] := by decide
    rw [hms] at hmy
    simp only [List.mem_cons, List.not_mem_nil, or_false] at hmy
    rcases hmy with h | h <;> subst h <;> simp [c6fetchSorted] at hp <;> subst hp <;>
      exact ⟨by decide, by decide⟩
  have h := checkAttendance_chronological c6fetchSorted 31 ⟨2025, 2, 10⟩ (by decide)
    hmonthly _ rfl
  exact ⟨_, rfl, h.2.2, h.2.1⟩

theorem getValidTokensFromFile_eq (decodeExp : String → Option Int) (now : Int)
    (cookies : List Cookie) (hrAtk xsrf : Cookie) (exp : Int)
    (hatk : findCookie cookies "hr_atk" = some hrAtk)
    (hxsrf : findCookie cookies "XSRF-TOKEN" = some xsrf)
    (hdec : decodeExp hrAtk.value = some exp) :
    CachedBrowserAuth.getValidTokensFromFile decodeExp now (some ⟨cookies⟩) =
      if exp * 1000 - 5 * 60 * 1000 > now then
        some (.valid ⟨hrAtk.value, xsrf.value, mappingIdOf (findCookie cookies "hr_mid")⟩
          cookies)
      else some (.needsRefresh cookies) := by
  simp [CachedBrowserAuth.getValidTokensFromFile, hatk, hxsrf, hdec]

/-- C8: for a credential whose expiry claim is decodable,
`getValidTokensFromFile` classifies it as still valid exactly when
`expiresAt` minus the fixed 5-minute buffer is later than now
(`exp * 1000 - 5 * 60 * 1000 > now`, times in milliseconds); a valid
credential is returned by `extractTokensFromBrowser` without consulting
the browser oracle, and a credential inside the buffer is classified as
needing refresh. -/
theorem getValidTokensFromFile_buffer (decodeExp : String → Option Int) (now : Int)
    (cookies : List Cookie) (hrAtk xsrf : Cookie) (exp : Int)
    (hatk : findCookie cookies "hr_atk" = some hrAtk)
    (hxsrf : findCookie cookies "XSRF-TOKEN" = some xsrf)
    (hdec : decodeExp hrAtk.value = some exp) :
    ((∃ t c, CachedBrowserAuth.getValidTokensFromFile decodeExp now (some ⟨cookies⟩)
        = some (.valid t c)) ↔ exp * 1000 - 5 * 60 * 1000 > now) ∧
    (exp * 1000 - 5 * 60 * 1000 > now →
      CachedBrowserAuth.extractTokensFromBrowser decodeExp now (some ⟨cookies⟩) none
        = some ⟨hrAtk.value, xsrf.value, mappingIdOf (findCookie cookies "hr_mid")⟩) ∧
    (¬ exp * 1000 - 5 * 60 * 1000 > now →
      CachedBrowserAuth.getValidTokensFromFile decodeExp now (some ⟨cookies⟩)
        = some (.needsRefresh cookies)) := by
  have heq := getValidTokensFromFile_eq decodeExp now cookies hrAtk xsrf exp hatk hxsrf hdec
  by_cases hgt : exp * 1000 - 5 * 60 * 1000 > now
  · rw [if_pos hgt] at heq
    refine ⟨⟨fun _ => hgt, fun _ => ⟨_, _, heq⟩⟩, fun _ => ?_, fun hng => absurd hgt hng⟩
    simp [CachedBrowserAuth.extractTokensFromBrowser, heq]
  · rw [if_neg hgt] at heq
    refine ⟨⟨?_, fun h => absurd h hgt⟩, fun h => absurd h hgt, fun _ => heq⟩
    rintro ⟨t, c, h⟩
    rw [heq] at h
    simp at h

/-- Witness for C8, with `now = 0` ms: a token expiring in 4 minutes
(`exp = 240` s) is inside the 5-minute buffer and classified
needs-refresh; one expiring in 10 minutes (`exp = 600` s) is valid and
returned with no browser available. -/
theorem getValidTokensFromFile_buffer_witness :
    CachedBrowserAuth.getValidTokensFromFile (fun _ => some 240) 0
      (some ⟨[⟨"hr_atk", "tok"⟩, ⟨"XSRF-TOKEN", "xs"⟩]⟩)
      = some (.needsRefresh [⟨"hr_atk", "tok"⟩, ⟨"XSRF-TOKEN", "xs"⟩]) ∧
    CachedBrowserAuth.extractTokensFromBrowser (fun _ => some 600) 0
      (some ⟨[⟨"hr_atk", "tok"⟩, ⟨"XSRF-TOKEN", "xs"⟩]⟩) none
      = some ⟨"tok", "xs", "P4D9T6HA"⟩ := by
  constructor
  · exact (getValidTokensFromFile_buffer (fun _ => some 240) 0 _
      ⟨"hr_atk", "tok"⟩ ⟨"XSRF-TOKEN", "xs"⟩ 240 (by decide) (by decide) rfl).2.2
      (by decide)
  · exact (getValidTokensFromFile_buffer (fun _ => some 600) 0 _
      ⟨"hr_atk", "tok"⟩ ⟨"XSRF-TOKEN", "xs"⟩ 600 (by decide) (by decide) rfl).2.1
      (by decide)

/-- C9 counterexample: with an undecodable expiry claim (`decodeExp`
returns `none`), the src/src/browser-auth.js session-file fast path
*returns the credential* — here with no browser fallback available at all
(`browserCookies = none`), so the refresh path is provably not taken.
The `catch (e)` around the expiry decode ignores the error instead of
classifying the token as needing refresh. -/
theorem extractTokensFromBrowser_undecodable_accepted_cex :
    BrowserAuth.extractTokensFromBrowser (fun _ => none) 0
      (some ⟨[⟨"hr_atk", "tok"⟩, ⟨"XSRF-TOKEN", "xs"⟩]⟩) none
      = some ⟨"tok", "xs", "P4D9T6HA"⟩ := by
  decide

/-- C9 (amended): the optimized variant's `getValidTokensFromFile` does
treat an undecodable expiry as "needs refresh" (it never reaches the
cached-valid fast path); but the live src/src/browser-auth.js
`extractTokensFromFile` ignores the decode error and accepts the
credential from its session-file fast path. -/
theorem undecodable_expiry_refresh (decodeExp : String → Option Int) (now : Int)
    (cookies : List Cookie) (hrAtk xsrf : Cookie)
    (hatk : findCookie cookies "hr_atk" = some hrAtk)
    (hxsrf : findCookie cookies "XSRF-TOKEN" = some xsrf)
    (hdec : decodeExp hrAtk.value = none) :
    CachedBrowserAuth.getValidTokensFromFile decodeExp now (some ⟨cookies⟩)
      = some (.needsRefresh cookies) ∧
    BrowserAuth.extractTokensFromFile decodeExp now (some ⟨cookies⟩)
      = some ⟨hrAtk.value, xsrf.value, mappingIdOf (findCookie cookies "hr_mid")⟩ := by
  constructor
  · simp [CachedBrowserAuth.getValidTokensFromFile, hatk, hxsrf, hdec]
  · simp [BrowserAuth.extractTokensFromFile, hatk, hxsrf, hdec]

/-- Witness for C9 at a concrete session: an undecodable expiry yields
the needs-refresh classification in `getValidTokensFromFile`. -/
theorem undecodable_expiry_refresh_witness :
    CachedBrowserAuth.getValidTokensFromFile (fun _ => none) 0
      (some ⟨[⟨"hr_atk", "tok"⟩, ⟨"XSRF-TOKEN", "xs"⟩]⟩)
      = some (.needsRefresh [⟨"hr_atk", "tok"⟩, ⟨"XSRF-TOKEN", "xs"⟩]) :=
  (undecodable_expiry_refresh (fun _ => none) 0 _
    ⟨"hr_atk", "tok"⟩ ⟨"XSRF-TOKEN", "xs"⟩ (by decide) (by decide) rfl).1

/-- C10 counterexample: the session-file path returns `null` for a
session whose `hr_atk` and `XSRF-TOKEN` cookies are both present, when
the decodable expiry is in the past (`exp * 1000 < now`) — so "only a
missing hr_atk or XSRF-TOKEN causes extraction to return null" fails as
stated. -/
theorem extractTokensFromFile_expired_null_cex :
    BrowserAuth.extractTokensFromFile (fun _ => some 0) 1000000
      (some ⟨[⟨"hr_atk", "tok"⟩, ⟨"XSRF-TOKEN", "xs"⟩, ⟨"hr_mid", "M1"⟩]⟩) = none := by
  decide

/-- C10 (amended): on both extraction paths a missing `hr_mid` cookie
never causes failure — extraction succeeds with the hard-coded mapping id
"P4D9T6HA" — provided, on the session-file path, the expiry check does
not classify the token as expired; and on the browser-cookie path a
missing `hr_atk` or `XSRF-TOKEN` does cause a `null` result. -/
theorem tokenExtraction_mappingId_default (decodeExp : String → Option Int) (now : Int)
    (cookies : List Cookie) (hrAtk xsrf : Cookie)
    (hatk : findCookie cookies "hr_atk" = some hrAtk)
    (hxsrf : findCookie cookies "XSRF-TOKEN" = some xsrf)
    (hmid : findCookie cookies "hr_mid" = none) :
    ((∀ exp, decodeExp hrAtk.value = some exp → ¬ exp * 1000 < now) →
      BrowserAuth.extractTokensFromFile decodeExp now (some ⟨cookies⟩)
        = some ⟨hrAtk.value, xsrf.value, "P4D9T6HA"⟩) ∧
    BrowserAuth.extractTokensFromCookies cookies
      = some ⟨hrAtk.value, xsrf.value, "P4D9T6HA"⟩ ∧
    (∀ cs : List Cookie,
      (findCookie cs "hr_atk" = none ∨ findCookie cs "XSRF-TOKEN" = none) →
      BrowserAuth.extractTokensFromCookies cs = none) := by
  refine ⟨?_, ?_, ?_⟩
  · intro hexp
    rcases hdec : decodeExp hrAtk.value with _ | exp
    · simp [BrowserAuth.extractTokensFromFile, hatk, hxsrf, hmid, hdec,
        mappingIdOf, jsStringOrDefault]
    · have hne := hexp exp hdec
      simp [BrowserAuth.extractTokensFromFile, hatk, hxsrf, hmid, hdec, hne,
        mappingIdOf, jsStringOrDefault]
  · simp [BrowserAuth.extractTokensFromCookies, hatk, hxsrf, hmid,
      mappingIdOf, jsStringOrDefault]
  · intro cs hcs
    rcases hcs with h | h
    · rcases hx : findCookie cs "XSRF-TOKEN" with _ | c <;>
        simp [BrowserAuth.extractTokensFromCookies, h, hx]
    · rcases ha : findCookie cs "hr_atk" with _ | c <;>
        simp [BrowserAuth.extractTokensFromCookies, h, ha]

/-- Witness for C10: a session with `hr_atk` and `XSRF-TOKEN` but no
`hr_mid` succeeds on both paths with the default mapping id. -/
theorem tokenExtraction_mappingId_default_witness :
    BrowserAuth.extractTokensFromFile (fun _ => some 9999999) 0
      (some ⟨[⟨"hr_atk", "tok"⟩, ⟨"XSRF-TOKEN", "xs"⟩]⟩)
      = some ⟨"tok", "xs", "P4D9T6HA"⟩ ∧
    BrowserAuth.extractTokensFromCookies [⟨"hr_atk", "tok"⟩, ⟨"XSRF-TOKEN", "xs"⟩]
      = some ⟨"tok", "xs", "P4D9T6HA"⟩ := by
  have h := tokenExtraction_mappingId_default (fun _ => some 9999999) 0
    [⟨"hr_atk", "tok"⟩, ⟨"XSRF-TOKEN", "xs"⟩] ⟨"hr_atk", "tok"⟩ ⟨"XSRF-TOKEN", "xs"⟩
    (by decide) (by decide) (by decide)
  refine ⟨h.1 ?_, h.2.1⟩
  intro exp hexp
  simp only [Option.some.injEq] at hexp
  subst hexp
  decide
